import Mathlib

/-!
# Verification of the Claude hook handler (claude_hook_v3.py)

A shallow embedding of the decision-and-delivery pipeline of the hook
handler: the priority-ranked pattern matcher (`EventMatcher`), the sound
playback entry point (`AudioManager.play_sound`), backend initialization
(`AudioManager._init_sound_players`), the event handler (`HookHandler.
handle_event`) and the entry point (`main`), together with theorems about
their behaviour.

Python strings are Lean `String`s; Python `re.match` with `re.IGNORECASE`
over the fixed set of regexes used by the table is embedded as a small
regex language `Rx`; JSON-decoded event payloads are `JValue` trees and a
Python `dict` is an association list (unique keys in real payloads; lookup
takes the first binding, as `dict.get` would).  Code that can raise a
Python exception is embedded in `Except String`.  Side-effecting code
(subprocess spawns, `time.sleep`, the audit log write) is embedded as an
explicit trace of effect markers, parameterized over an environment that
supplies the outcome of each external probe or call.
-/

set_option autoImplicit false

namespace HookV3

/-! ## Regexes

The regex language is exactly large enough for the 30 patterns hardcoded in
`EventMatcher.__init__`: literal runs (matched case-insensitively, since
every `re.match` call passes `re.IGNORECASE`), `\s+`, `.*`, concatenation
and alternation `|`.  A leading `^` in the source regexes is a no-op under
`re.match` (which already anchors at position 0, and `re.MULTILINE` is
never set), so it has no constructor.  `\s` is modelled as the ASCII
whitespace class `[ \t\n\r\f\v]`; the case fold is ASCII `toLower`. -/

inductive Rx where
  | eps : Rx
  | lit : List Char → Rx
  | seq : Rx → Rx → Rx
  | alt : Rx → Rx → Rx
  | wsPlus : Rx
  | dotStar : Rx
  deriving DecidableEq

/-- Case-insensitive character comparison (`re.IGNORECASE`). -/
def ciEq (a b : Char) : Bool := a.toLower == b.toLower

/-- The `\s` character class. -/
def isWsChar (c : Char) : Bool :=
  c == ' ' || c == '\t' || c == '\n' || c == '\r' ||
  c == Char.ofNat 11 || c == Char.ofNat 12

/-- Consume a literal (case-insensitively); return the remainder. -/
def dropCI : List Char → List Char → Option (List Char)
  | [], s => some s
  | _ :: _, [] => none
  | c :: cs, x :: xs => if ciEq c x then dropCI cs xs else none

/-- Remainders after consuming a nonempty run of whitespace (`\s+`). -/
def wsSplits : List Char → List (List Char)
  | [] => []
  | x :: xs => if isWsChar x then xs :: wsSplits xs else []

/-- Remainders after consuming any (possibly empty) run of non-newline
characters (`.*`; `.` does not match a newline without `re.DOTALL`). -/
def dotSplits : List Char → List (List Char)
  | [] => [[]]
  | x :: xs => (x :: xs) :: (if x == '\n' then [] else dotSplits xs)

/-- All remainders left after the regex matches some prefix of `s`.
`re.match` succeeds iff this list is nonempty (backtracking existence
semantics; greediness does not affect the boolean outcome). -/
def runRx : Rx → List Char → List (List Char)
  | .eps, s => [s]
  | .lit l, s =>
    match dropCI l s with
    | some s₂ => [s₂]
    | none => []
  | .seq a b, s => (runRx a s).foldr (fun s₂ acc => runRx b s₂ ++ acc) []
  | .alt a b, s => runRx a s ++ runRx b s
  | .wsPlus, s => wsSplits s
  | .dotStar, s => dotSplits s

/-- Regex from a literal string. -/
def rlit (s : String) : Rx := .lit s.data

/-! ## Patterns (`Pattern` dataclass and the tables in `EventMatcher.__init__`) -/

structure Pattern where
  regex : Rx
  sound : String
  voice_key : String
  priority : Int
  description : String
  deriving DecidableEq

/-- `Pattern.matches`: `bool(re.match(self.regex, text, re.IGNORECASE))`. -/
def Pattern.matches (p : Pattern) (text : String) : Bool :=
  !(runRx p.regex text.data).isEmpty

namespace EventMatcher

/-- `self.patterns["system_events"]`. -/
def system_events : List Pattern :=
  [⟨rlit "Notification", "ready", "Notification", 100, "Claude is ready"⟩,
   ⟨rlit "Stop", "complete", "Stop", 100, "Task completed"⟩,
   ⟨rlit "SubagentStop", "complete", "SubagentStop", 100, "Subtask completed"⟩,
   ⟨rlit "UserPromptSubmit", "prompt", "UserPromptSubmit", 100, "User prompt"⟩]

/-- `self.patterns["tools"]`. -/
def tools : List Pattern :=
  [⟨rlit "Edit", "edit", "Edit", 90, "File editing"⟩,
   ⟨rlit "MultiEdit", "edit", "MultiEdit", 90, "Multiple edits"⟩,
   ⟨rlit "Write", "write", "Write", 90, "File creation"⟩,
   ⟨rlit "NotebookEdit", "edit", "NotebookEdit", 90, "Notebook editing"⟩,
   ⟨rlit "TodoWrite", "list", "TodoWrite", 80, "Todo list update"⟩,
   ⟨rlit "Read", "read", "Read", 70, "File reading"⟩,
   ⟨rlit "Grep", "search", "Grep", 70, "Text search"⟩,
   ⟨rlit "Task", "task", "Task", 70, "Task execution"⟩,
   ⟨rlit "LS", "list", "LS", 70, "Directory listing"⟩,
   ⟨rlit "Glob", "search", "Glob", 70, "File pattern search"⟩,
   ⟨rlit "exit_plan_mode", "complete", "exit_plan_mode", 70, "Exit plan mode"⟩,
   ⟨rlit "WebFetch", "web", "WebFetch", 70, "Web fetch"⟩,
   ⟨rlit "WebSearch", "search", "WebSearch", 70, "Web search"⟩]

/-- `self.patterns["bash_commands"]`.  The source regexes, in order:
`^git\s+commit`, `^git\s+push`, `^git\s+pull`, `^gh\s+pr`,
`^npm\s+test|^yarn\s+test`, `^pytest|^python.*test`, `^go\s+test`,
`^cargo\s+test`, `^make`, `^docker`, `^npm`, `^python`, `.*`. -/
def bash_commands : List Pattern :=
  [⟨.seq (rlit "git") (.seq .wsPlus (rlit "commit")), "commit", "git_commit", 95, "Git commit"⟩,
   ⟨.seq (rlit "git") (.seq .wsPlus (rlit "push")), "push", "git_push", 95, "Git push"⟩,
   ⟨.seq (rlit "git") (.seq .wsPlus (rlit "pull")), "pull", "git_pull", 95, "Git pull"⟩,
   ⟨.seq (rlit "gh") (.seq .wsPlus (rlit "pr")), "pr", "gh_pr", 95, "GitHub PR"⟩,
   ⟨.alt (.seq (rlit "npm") (.seq .wsPlus (rlit "test")))
         (.seq (rlit "yarn") (.seq .wsPlus (rlit "test"))), "test", "test", 90, "JavaScript tests"⟩,
   ⟨.alt (rlit "pytest")
         (.seq (rlit "python") (.seq .dotStar (rlit "test"))), "test", "test", 90, "Python tests"⟩,
   ⟨.seq (rlit "go") (.seq .wsPlus (rlit "test")), "test", "test", 90, "Go tests"⟩,
   ⟨.seq (rlit "cargo") (.seq .wsPlus (rlit "test")), "test", "test", 90, "Rust tests"⟩,
   ⟨rlit "make", "build", "build", 85, "Make build"⟩,
   ⟨rlit "docker", "docker", "docker", 85, "Docker command"⟩,
   ⟨rlit "npm", "npm", "npm", 85, "NPM command"⟩,
   ⟨rlit "python", "python", "python", 85, "Python command"⟩,
   ⟨.dotStar, "bash", "Bash", 0, "Generic bash command"⟩]

end EventMatcher

/-! ## JSON values (the decoded stdin payload) -/

inductive JValue where
  | null : JValue
  | bool : Bool → JValue
  | num : Int → JValue
  | str : String → JValue
  | arr : List JValue → JValue
  | obj : List (String × JValue) → JValue

/-- Python `d.get(key, default)` on a dict embedded as an association list. -/
def dictGet (kvs : List (String × JValue)) (key : String) (dflt : JValue) : JValue :=
  match kvs.find? (fun kv => kv.1 == key) with
  | some kv => kv.2
  | none => dflt

/-- Python `v == "s"` where `v` came from a JSON payload: equality with a
string is `False` for every non-string value, never an error. -/
def JValue.isStrEq (v : JValue) (s : String) : Bool :=
  match v with
  | .str t => t == s
  | _ => false

def JValue.isStr : JValue → Bool
  | .str _ => true
  | _ => false

/-- `pattern.matches(v)` on a payload-sourced value: `re.match` raises
`TypeError` unless the subject is a string. -/
def matchesE (p : Pattern) (v : JValue) : Except String Bool :=
  match v with
  | .str s => .ok (p.matches s)
  | _ => .error "TypeError: expected string or bytes-like object"

/-- The first-match-wins loops over `system_events` / `tools`. -/
def findMatchE : List Pattern → JValue → Except String (Option Pattern)
  | [], _ => .ok none
  | p :: ps, v =>
    match matchesE p v with
    | .error e => .error e
    | .ok true => .ok (some p)
    | .ok false => findMatchE ps v

/-- The collect-all-matches loop over `bash_commands`. -/
def filterMatchesE : List Pattern → JValue → Except String (List Pattern)
  | [], _ => .ok []
  | p :: ps, v =>
    match matchesE p v with
    | .error e => .error e
    | .ok b =>
      match filterMatchesE ps v with
      | .error e => .error e
      | .ok rest => .ok (if b then p :: rest else rest)

/-- `value.get("command", "")`: only a dict has `.get`; any other payload
type raises `AttributeError`. -/
def getCommandAttr (v : JValue) : Except String JValue :=
  match v with
  | .obj kvs => .ok (dictGet kvs "command" (.str ""))
  | _ => .error "AttributeError: object has no attribute get"

/-- Python `max(matches, key=lambda p: p.priority)` on a nonempty list:
a left fold that replaces the current best only on a strictly greater
priority, hence returns the first maximal element. -/
def pyMaxFold (x : Pattern) (xs : List Pattern) : Pattern :=
  xs.foldl (fun best p => if p.priority > best.priority then p else best) x

def pyMax : List Pattern → Option Pattern
  | [] => none
  | x :: xs => some (pyMaxFold x xs)

namespace EventMatcher

/-- `EventMatcher.find_match`.  Returns the `(sound, voice_key)` tuple, with
Python `None` as `none`; a raised exception is `Except.error`. -/
def find_match (event_data : List (String × JValue)) :
    Except String (Option String × Option String) :=
  let event_name := dictGet event_data "hook_event_name" (.str "")
  let tool_name := dictGet event_data "tool_name" (.str "")
  match findMatchE system_events event_name with
  | .error e => .error e
  | .ok (some p) => .ok (some p.sound, some p.voice_key)
  | .ok none =>
    match findMatchE tools tool_name with
    | .error e => .error e
    | .ok (some p) => .ok (some p.sound, some p.voice_key)
    | .ok none =>
      if tool_name.isStrEq "Bash" && event_name.isStrEq "PreToolUse" then
        match getCommandAttr (dictGet event_data "tool_input" (.obj [])) with
        | .error e => .error e
        | .ok command =>
          match filterMatchesE bash_commands command with
          | .error e => .error e
          | .ok ms =>
            match pyMax ms with
            | some best => .ok (some best.sound, some best.voice_key)
            | none => .ok (none, none)
      else
        .ok (none, none)

end EventMatcher

/-! ## Localization table (`JAPANESE_EVENT_DESCRIPTIONS`) -/

def JAPANESE_EVENT_DESCRIPTIONS : List (String × String) :=
  [("Notification", "クロードが準備完了しました"),
   ("Stop", "タスクが完了しました"),
   ("SubagentStop", "サブタスクが完了しました"),
   ("UserPromptSubmit", "ユーザーがプロンプトを送信しました"),
   ("Edit", "ファイルを編集しています"),
   ("MultiEdit", "複数の編集を実行しています"),
   ("Write", "ファイルを作成しています"),
   ("NotebookEdit", "ノートブックを編集しています"),
   ("TodoWrite", "タスクリストを更新しています"),
   ("Read", "ファイルを読み込んでいます"),
   ("Grep", "テキストを検索しています"),
   ("Task", "タスクを実行しています"),
   ("Bash", "コマンドを実行しています"),
   ("LS", "ディレクトリを一覧表示しています"),
   ("Glob", "ファイルパターンを検索しています"),
   ("exit_plan_mode", "計画モードを終了しています"),
   ("WebFetch", "ウェブページを取得しています"),
   ("WebSearch", "ウェブ検索を実行しています"),
   ("git_commit", "Gitコミットを作成しています"),
   ("git_push", "変更をプッシュしています"),
   ("git_pull", "変更をプルしています"),
   ("gh_pr", "プルリクエストを作成しています"),
   ("test", "テストを実行しています"),
   ("build", "ビルドを実行しています"),
   ("docker", "Dockerコマンドを実行しています"),
   ("npm", "NPMコマンドを実行しています"),
   ("python", "Pythonスクリプトを実行しています")]

/-- Dict lookup in the localization table (`dict[key]` as `Option`). -/
def jpLookup (key : String) : Option String :=
  (JAPANESE_EVENT_DESCRIPTIONS.find? (fun kv => kv.1 == key)).map (fun kv => kv.2)

/-- `JAPANESE_EVENT_DESCRIPTIONS.get(voice_key, voice_key)`: the raw key is
the fallback text when the table has no entry. -/
def jpGet (key : String) : String :=
  match jpLookup key with
  | some t => t
  | none => key

/-! ## AudioManager

`play_sound` spawns subprocesses and reads the filesystem; those effects are
recorded in a trace, and their outcomes are supplied by an `AudioEnv`:
`find_sound_file` is the (cached) lookup `_find_sound_file`, `player_play`
gives each configured player's `play` result, `beep_play` the result of
`SystemBeepPlayer.play`.  The Python substring tests `"/" in s` etc. are
embedded over the character list. -/

/-- Does `s` start with `pat`? (exact, case-sensitive — Python `in`). -/
def startsWithCh : List Char → List Char → Bool
  | _, [] => true
  | [], _ :: _ => false
  | c :: cs, d :: ds => c == d && startsWithCh cs ds

/-- Python `pat in s` (substring containment). -/
def containsSubstr : List Char → List Char → Bool
  | [], pat => startsWithCh [] pat
  | s@(_ :: t), pat => startsWithCh s pat || containsSubstr t pat

def strContainsSubstr (s pat : String) : Bool :=
  containsSubstr s.data pat.data

/-- Observable actions of `AudioManager.play_sound`. -/
inductive AudioEffect where
  | findSoundFile : String → AudioEffect
  | playerPlay : String → String → AudioEffect
  | systemBeep : AudioEffect
  deriving DecidableEq

/-- Environment resolving the external outcomes `play_sound` depends on. -/
structure AudioEnv where
  find_sound_file : String → Option String
  sound_players : List String
  player_play : String → String → Bool
  beep_play : Bool
  fallback_enabled : Bool

/-- The `for player in self.sound_players` loop: try each until success. -/
def tryPlayers (env : AudioEnv) : List String → String → Bool × List AudioEffect
  | [], _ => (false, [])
  | p :: ps, path =>
    if env.player_play p path then
      (true, [.playerPlay p path])
    else
      let r := tryPlayers env ps path
      (r.1, .playerPlay p path :: r.2)

/-- `AudioManager.play_sound`: result plus the trace of external actions.
The leading security check short-circuits before any lookup; on a missing
file the system beep runs only when fallback is enabled; otherwise each
player is tried in order, with the beep as last resort. -/
def play_sound (env : AudioEnv) (sound_name : String) : Bool × List AudioEffect :=
  if strContainsSubstr sound_name "/" || strContainsSubstr sound_name "\\" ||
     strContainsSubstr sound_name ".." then
    (false, [])
  else
    match env.find_sound_file sound_name with
    | none =>
      if env.fallback_enabled then
        (env.beep_play, [.findSoundFile sound_name, .systemBeep])
      else
        (false, [.findSoundFile sound_name])
    | some path =>
      let r := tryPlayers env env.sound_players path
      if r.1 then
        (true, .findSoundFile sound_name :: r.2)
      else if env.fallback_enabled then
        (env.beep_play, .findSoundFile sound_name :: r.2 ++ [.systemBeep])
      else
        (false, .findSoundFile sound_name :: r.2)

/-! ## Sound backend initialization (`AudioManager._init_sound_players`) -/

/-- The three candidate sound player classes, in preference order. -/
inductive SPlayer where
  | afplay : SPlayer
  | sox : SPlayer
  | systemBeep : SPlayer
  deriving DecidableEq

/-- Probe outcomes for the two players that shell out to `which`;
`SystemBeepPlayer.is_available` is `return True` in the source, so it does
not depend on the environment. -/
structure ProbeEnv where
  afplay_available : Bool
  sox_available : Bool

def SPlayer.is_available (env : ProbeEnv) : SPlayer → Bool
  | .afplay => env.afplay_available
  | .sox => env.sox_available
  | .systemBeep => true

/-- `AudioManager._init_sound_players`: keep the available players; if none
survived, fall back to a fresh `SystemBeepPlayer`. -/
def init_sound_players (env : ProbeEnv) : List SPlayer :=
  let players := [SPlayer.afplay, SPlayer.sox, SPlayer.systemBeep].filter
    (fun p => p.is_available env)
  if players.isEmpty then [SPlayer.systemBeep] else players

/-! ## HookHandler.handle_event

The handler's externally visible actions: the audit-log append, the calls
into `AudioManager` (`speak_text`, `play_sound`), and the `time.sleep(0.1)`
gap in mode `both`.  Logger output is not delivery and is not traced. -/

inductive HandleEffect where
  | log_event : HandleEffect
  | speak : String → HandleEffect
  | sleep_delay : HandleEffect
  | play : String → HandleEffect
  deriving DecidableEq

/-- The two `HookConfig` fields `handle_event` branches on. -/
structure HookConfig where
  mode : String
  test_mode : Bool

/-- Python truthiness of an optional string: `None` and `""` are falsy. -/
def truthyOpt : Option String → Bool
  | none => false
  | some s => !(s == "")

/-- Lines 556–585 of `handle_event`: dispatch on `(sound_name, voice_key)`
once the matcher has produced them.  Returns the trace of delivery actions.
In mode `both` the voice half runs first, then — only when a sound half is
present and test mode is off — `time.sleep(0.1)` and the sound call. -/
def dispatch (cfg : HookConfig) (sound_name voice_key : Option String) :
    List HandleEffect :=
  if !truthyOpt sound_name && !truthyOpt voice_key then
    []
  else if cfg.mode == "sound" && truthyOpt sound_name then
    if !cfg.test_mode then [.play (sound_name.getD "")] else []
  else if cfg.mode == "voice" && truthyOpt voice_key then
    if !cfg.test_mode then [.speak (jpGet (voice_key.getD ""))] else []
  else if cfg.mode == "both" then
    (if truthyOpt voice_key then
      if !cfg.test_mode then [.speak (jpGet (voice_key.getD ""))] else []
    else []) ++
    (if truthyOpt sound_name then
      if !cfg.test_mode then [.sleep_delay, .play (sound_name.getD "")] else []
    else [])
  else
    []

/-- `HookHandler.handle_event`: the audit log is written first, then the
matcher runs (its `TypeError` propagates as the second component), then the
mode dispatch.  The trace lists the externally visible actions in order. -/
def handle_event (cfg : HookConfig) (event_data : List (String × JValue)) :
    List HandleEffect × Option String :=
  match EventMatcher.find_match event_data with
  | .error e => ([.log_event], some e)
  | .ok (sound_name, voice_key) =>
    (.log_event :: dispatch cfg sound_name voice_key, none)

/-! ## main

`main` wires configuration, handler construction, `json.load(sys.stdin)`
and `handle_event` inside one `try`.  `except json.JSONDecodeError` exits 1;
`except KeyboardInterrupt` and the catch-all `except Exception` exit 0.
Nothing before the stdin read can raise `json.JSONDecodeError` (the config
file read in `load_config` has its own swallow-all handler), so the faults
the earlier stages can raise are modelled without that constructor. -/

/-- An exception raised outside `json.load(sys.stdin)`. -/
inductive RuntimeFault where
  | keyboard_interrupt : RuntimeFault
  | other : String → RuntimeFault
  deriving DecidableEq

/-- Outcome of `json.load(sys.stdin)`. -/
inductive StdinOutcome where
  | parsed : JValue → StdinOutcome
  | jsonError : String → StdinOutcome
  | readFault : RuntimeFault → StdinOutcome

/-- Environment for one run of `main`: possible faults of `load_config` and
of handler construction, the stdin outcome, and the effective config. -/
structure MainEnv where
  config_fault : Option RuntimeFault
  init_fault : Option RuntimeFault
  stdin : StdinOutcome
  cfg : HookConfig

/-- Exit code produced by the `except` clauses for a non-JSON-decode fault:
`KeyboardInterrupt` and the generic `Exception` handler both `sys.exit(0)`. -/
def exitForFault : RuntimeFault → Nat
  | .keyboard_interrupt => 0
  | .other _ => 0

/-- `main`: returns the process exit code.  A payload that parsed to a
non-dict raises `AttributeError` inside `handle_event` (caught, exit 0);
an exception propagating out of `handle_event` is caught, exit 0. -/
def runMain (env : MainEnv) : Nat :=
  match env.config_fault with
  | some f => exitForFault f
  | none =>
    match env.init_fault with
    | some f => exitForFault f
    | none =>
      match env.stdin with
      | .jsonError _ => 1
      | .readFault f => exitForFault f
      | .parsed v =>
        match v with
        | .obj kvs =>
          match handle_event env.cfg kvs with
          | (_, some _) => 0
          | (_, none) => 0
        | _ => 0

/-- `True` exactly on the `json.JSONDecodeError` outcome of the stdin read. -/
def StdinOutcome.isJsonError : StdinOutcome → Bool
  | .jsonError _ => true
  | _ => false

/-- Is this handler action a delivery action (a call into a backend)? -/
def HandleEffect.isDelivery : HandleEffect → Bool
  | .speak _ => true
  | .play _ => true
  | _ => false

/-- All rules of the pattern table, in category order. -/
def allPatterns : List Pattern :=
  EventMatcher.system_events ++ EventMatcher.tools ++ EventMatcher.bash_commands

/-- The catch-all shell rule (last row of `bash_commands`). -/
def catch_all : Pattern := ⟨.dotStar, "bash", "Bash", 0, "Generic bash command"⟩

/-- A shell pre-execution event carrying the command `c`. -/
def bashEvent (c : String) : List (String × JValue) :=
  [("hook_event_name", .str "PreToolUse"), ("tool_name", .str "Bash"),
   ("tool_input", .obj [("command", .str c)])]

/-- The fields `find_match` reads all have the type the code expects of
them (each may be absent, in which case the `dict.get` default kicks in and
is itself well typed). -/
def wellTypedEvent (e : List (String × JValue)) : Bool :=
  (dictGet e "hook_event_name" (.str "")).isStr &&
  (dictGet e "tool_name" (.str "")).isStr &&
  (match dictGet e "tool_input" (.obj []) with
   | .obj kvs => (dictGet kvs "command" (.str "")).isStr
   | _ => false)

/-! ## Basic lemmas about the matcher -/

theorem dotSplits_isEmpty (l : List Char) : (dotSplits l).isEmpty = false := by
  cases l <;> simp [dotSplits]

/-- The catch-all regex `.*` matches every text under `re.match`. -/
theorem catch_all_matches (t : String) : catch_all.matches t = true := by
  simp [Pattern.matches, catch_all, runRx, dotSplits_isEmpty]

/-- On a string subject, the first-match loop is `List.find?`. -/
theorem findMatchE_str (ps : List Pattern) (s : String) :
    findMatchE ps (.str s) = .ok (ps.find? (fun p => p.matches s)) := by
  induction ps with
  | nil => rfl
  | cons p ps ih =>
    simp only [findMatchE, matchesE, List.find?]
    cases h : p.matches s <;> simp [h, ih]

/-- On a string subject, the collect-matches loop is `List.filter`. -/
theorem filterMatchesE_str (ps : List Pattern) (s : String) :
    filterMatchesE ps (.str s) = .ok (ps.filter (fun p => p.matches s)) := by
  induction ps with
  | nil => rfl
  | cons p ps ih =>
    simp only [filterMatchesE, matchesE, ih]
    cases h : p.matches s <;> simp [h, List.filter_cons]

theorem JValue.isStr_iff (v : JValue) : v.isStr = true ↔ ∃ s, v = .str s := by
  cases v <;> simp [JValue.isStr]

/-- Characterization of Python `max(..., key=lambda p: p.priority)` over a
nonempty list: the result splits the list as `l1 ++ result :: l2` where
everything in `l1` has strictly lower priority (so the result is the first
element attaining the maximum) and everything in the list has priority at
most the result's. -/
theorem pyMaxFold_spec (xs : List Pattern) (x : Pattern) :
    ∃ l1 l2, x :: xs = l1 ++ pyMaxFold x xs :: l2 ∧
      (∀ q ∈ l1, q.priority < (pyMaxFold x xs).priority) ∧
      (∀ q ∈ x :: xs, q.priority ≤ (pyMaxFold x xs).priority) := by
  induction xs generalizing x with
  | nil =>
    refine ⟨[], [], rfl, by simp, ?_⟩
    intro q hq
    rw [List.mem_singleton.mp hq]
    exact le_refl _
  | cons y ys ih =>
    have hstep : pyMaxFold x (y :: ys) =
        pyMaxFold (if y.priority > x.priority then y else x) ys := rfl
    by_cases hy : y.priority > x.priority
    · rw [hstep, if_pos hy]
      obtain ⟨l1, l2, hdec, hlt, hle⟩ := ih y
      have hymax : y.priority ≤ (pyMaxFold y ys).priority :=
        hle y (List.mem_cons_self y ys)
      refine ⟨x :: l1, l2, ?_, ?_, ?_⟩
      · rw [List.cons_append, ← hdec]
      · intro q hq
        rcases List.mem_cons.mp hq with rfl | hq
        · omega
        · exact hlt q hq
      · intro q hq
        rcases List.mem_cons.mp hq with rfl | hq
        · omega
        · exact hle q hq
    · rw [hstep, if_neg hy]
      obtain ⟨l1, l2, hdec, hlt, hle⟩ := ih x
      cases l1 with
      | nil =>
        simp only [List.nil_append] at hdec
        injection hdec with h1 h2
        refine ⟨[], y :: ys, ?_, by simp, ?_⟩
        · rw [List.nil_append, ← h1]
        · intro q hq
          rcases List.mem_cons.mp hq with rfl | hq
          · rw [← h1]
          · rcases List.mem_cons.mp hq with rfl | hq
            · rw [← h1]; omega
            · exact hle q (List.mem_cons_of_mem x hq)
      | cons a l1t =>
        rw [List.cons_append] at hdec
        injection hdec with ha hys
        have hxlt : x.priority < (pyMaxFold x ys).priority := by
          have := hlt a (List.mem_cons_self a l1t)
          rw [← ha] at this
          exact this
        refine ⟨x :: y :: l1t, l2, ?_, ?_, ?_⟩
        · rw [List.cons_append, List.cons_append, ← hys]
        · intro q hq
          rcases List.mem_cons.mp hq with rfl | hq
          · exact hxlt
          · rcases List.mem_cons.mp hq with rfl | hq
            · omega
            · exact hlt q (List.mem_cons_of_mem a hq)
        · intro q hq
          rcases List.mem_cons.mp hq with rfl | hq
          · exact le_of_lt hxlt
          · rcases List.mem_cons.mp hq with rfl | hq
            · omega
            · exact hle q (List.mem_cons_of_mem x hq)

theorem pyMax_mem {l : List Pattern} {p : Pattern} (h : pyMax l = some p) : p ∈ l := by
  cases l with
  | nil => simp [pyMax] at h
  | cons x xs =>
    simp only [pyMax, Option.some.injEq] at h
    obtain ⟨l1, l2, hdec, -, -⟩ := pyMaxFold_spec xs x
    rw [hdec, ← h]
    exact List.mem_append_right l1 (List.mem_cons_self _ _)

theorem findMatchE_mem {ps : List Pattern} {v : JValue} {p : Pattern}
    (h : findMatchE ps v = .ok (some p)) : p ∈ ps := by
  induction ps with
  | nil => simp [findMatchE] at h
  | cons q qs ih =>
    simp only [findMatchE] at h
    cases hm : matchesE q v with
    | error e => rw [hm] at h; cases h
    | ok b =>
      rw [hm] at h
      cases b with
      | true =>
        simp only [Except.ok.injEq, Option.some.injEq] at h
        rw [← h]
        exact List.mem_cons_self q qs
      | false => exact List.mem_cons_of_mem q (ih h)

theorem filterMatchesE_sub {ps : List Pattern} {v : JValue} {ms : List Pattern}
    (h : filterMatchesE ps v = .ok ms) : ∀ p ∈ ms, p ∈ ps := by
  induction ps generalizing ms with
  | nil =>
    simp only [filterMatchesE, Except.ok.injEq] at h
    rw [← h]
    intro p hp
    cases hp
  | cons q qs ih =>
    simp only [filterMatchesE] at h
    cases hm : matchesE q v with
    | error e => rw [hm] at h; cases h
    | ok b =>
      rw [hm] at h
      cases hr : filterMatchesE qs v with
      | error e => rw [hr] at h; cases h
      | ok rest =>
        rw [hr] at h
        simp only [Except.ok.injEq] at h
        intro p hp
        rw [← h] at hp
        cases b with
        | true =>
          rcases List.mem_cons.mp hp with rfl | hp
          · exact List.mem_cons_self p qs
          · exact List.mem_cons_of_mem q (ih hr p hp)
        | false => exact List.mem_cons_of_mem q (ih hr p hp)

/-- Every rule in the table carries a nonempty sound id, a nonempty (hence
truthy) voice key, and a voice key present in the localization table. -/
theorem allPatterns_fields :
    (allPatterns.all fun p =>
      !(p.sound == "") && !(p.voice_key == "") && (jpLookup p.voice_key).isSome) = true := by
  decide

/-- Reduction of `find_match` on a shell pre-execution event: the system and
tool categories never match, and the result is the priority-maximal rule of
the shell category. -/
theorem find_match_bashEvent (c : String) :
    EventMatcher.find_match (bashEvent c) =
      match pyMax (EventMatcher.bash_commands.filter (fun q => q.matches c)) with
      | some best => .ok (some best.sound, some best.voice_key)
      | none => .ok (none, none) := by
  have h1 : dictGet (bashEvent c) "hook_event_name" (.str "") = .str "PreToolUse" := rfl
  have h2 : dictGet (bashEvent c) "tool_name" (.str "") = .str "Bash" := rfl
  have h3 : dictGet (bashEvent c) "tool_input" (.obj []) = .obj [("command", .str c)] := rfl
  have hs : EventMatcher.system_events.find? (fun q => q.matches "PreToolUse") = none := by
    decide
  have ht : EventMatcher.tools.find? (fun q => q.matches "Bash") = none := by
    decide
  have hcmd : getCommandAttr (JValue.obj [("command", .str c)]) = .ok (.str c) := rfl
  simp only [EventMatcher.find_match, h1, h2, h3, findMatchE_str, hs, ht, hcmd,
    filterMatchesE_str, JValue.isStrEq]
  rfl

/-- Every successful result of the matcher is either the null directive or
the `(sound, voice_key)` pair of some rule of the table. -/
theorem find_match_shape {e : List (String × JValue)} {r : Option String × Option String}
    (h : EventMatcher.find_match e = .ok r) :
    r = (none, none) ∨ ∃ p, p ∈ allPatterns ∧ r = (some p.sound, some p.voice_key) := by
  simp only [EventMatcher.find_match] at h
  split at h
  · cases h
  · rename_i p heq
    injection h with h
    right
    exact ⟨p, List.mem_append_left _ (List.mem_append_left _ (findMatchE_mem heq)), h.symm⟩
  · rename_i heq1
    split at h
    · cases h
    · rename_i p heq
      injection h with h
      right
      exact ⟨p, List.mem_append_left _ (List.mem_append_right _ (findMatchE_mem heq)), h.symm⟩
    · split at h
      · split at h
        · cases h
        · split at h
          · cases h
          · rename_i heqf
            split at h
            · rename_i best heqm
              injection h with h
              right
              refine ⟨best, List.mem_append_right _ ?_, h.symm⟩
              exact filterMatchesE_sub heqf best (pyMax_mem heqm)
            · injection h with h
              left
              exact h.symm
      · injection h with h
        left
        exact h.symm

/-- A matched directive always carries a nonempty sound id and voice key
(every rule in the table does). -/
theorem find_match_ok_fields {e : List (String × JValue)} {s v : String}
    (h : EventMatcher.find_match e = .ok (some s, some v)) : s ≠ "" ∧ v ≠ "" := by
  rcases find_match_shape h with hnull | ⟨p, hp, hr⟩
  · cases hnull
  · obtain ⟨hs, hv⟩ : some s = some p.sound ∧ some v = some p.voice_key := by
      exact ⟨congrArg Prod.fst hr, congrArg Prod.snd hr⟩
    have hf := List.all_eq_true.mp allPatterns_fields p hp
    simp only [Bool.and_eq_true, Bool.not_eq_true', beq_eq_false_iff_ne] at hf
    injection hs with hs
    injection hv with hv
    exact ⟨hs ▸ hf.1.1, hv ▸ hf.1.2⟩

/-- In mode `both` with test mode off and both halves truthy, the dispatch
trace is: speak, then the sleep gap, then the sound call. -/
theorem dispatch_both (cfg : HookConfig) (s v : String) (hm : cfg.mode = "both")
    (ht : cfg.test_mode = false) (hs : s ≠ "") (hv : v ≠ "") :
    dispatch cfg (some s) (some v) = [.speak (jpGet v), .sleep_delay, .play s] := by
  have hsb : (s == "") = false := beq_eq_false_iff_ne.mpr hs
  have hvb : (v == "") = false := beq_eq_false_iff_ne.mpr hv
  simp [dispatch, truthyOpt, hm, ht, hsb, hvb]

/-- When test mode is set, the dispatch performs no action at all. -/
theorem dispatch_test_mode (cfg : HookConfig) (sn vk : Option String)
    (h : cfg.test_mode = true) : dispatch cfg sn vk = [] := by
  simp only [dispatch, h, Bool.not_true]
  split
  · rfl
  · split
    · rfl
    · split
      · rfl
      · split
        · simp
        · rfl

/-! ## Claims -/

/-- C1: For every shell pre-execution event (`tool_name = "Bash"`,
`event_name = "PreToolUse"`), `EventMatcher.find_match` returns the
`(sound, voice_key)` pair of the rule with the numerically highest priority
among all shell-command rules matching the command as a case-insensitive
prefix; among equal maximal priorities the rule declared earliest in the
table wins (everything before the winner in the filtered, table-ordered
list has strictly lower priority).  In particular `"git commit -m x"`
resolves to the `git_commit` rule, not the catch-all. -/
theorem c1_shell_priority_resolution :
    (∀ c : String, ∃ p l1 l2,
      EventMatcher.bash_commands.filter (fun q => q.matches c) = l1 ++ p :: l2 ∧
      (∀ q ∈ l1, q.priority < p.priority) ∧
      (∀ q ∈ EventMatcher.bash_commands, q.matches c = true → q.priority ≤ p.priority) ∧
      EventMatcher.find_match (bashEvent c) = .ok (some p.sound, some p.voice_key)) ∧
    EventMatcher.find_match (bashEvent "git commit -m x") =
      .ok (some "commit", some "git_commit") := by
  constructor
  · intro c
    cases hf : EventMatcher.bash_commands.filter (fun q => q.matches c) with
    | nil =>
      exfalso
      have hmem : catch_all ∈ EventMatcher.bash_commands.filter (fun q => q.matches c) :=
        List.mem_filter.mpr ⟨by decide, catch_all_matches c⟩
      rw [hf] at hmem
      cases hmem
    | cons x xs =>
      obtain ⟨l1, l2, hdec, hlt, hle⟩ := pyMaxFold_spec xs x
      refine ⟨pyMaxFold x xs, l1, l2, hdec, hlt, ?_, ?_⟩
      · intro q hq hqm
        have hqf : q ∈ EventMatcher.bash_commands.filter (fun r => r.matches c) :=
          List.mem_filter.mpr ⟨hq, hqm⟩
        rw [hf] at hqf
        exact hle q hqf
      · rw [find_match_bashEvent c, hf]
        rfl
  · rfl

/-- C2 counterexample: the claim says `find_match` never raises, for
arbitrarily malformed payloads including fields of unexpected type; but a
payload whose `hook_event_name` is the number 1 makes `re.match` raise
`TypeError` inside the very first pattern test. -/
theorem c2_counterexample :
    EventMatcher.find_match [("hook_event_name", JValue.num 1)] =
      .error "TypeError: expected string or bytes-like object" := rfl

/-- C2 (amended): for every payload whose present fields are well typed
(`hook_event_name` and `tool_name` strings when present, `tool_input` a
mapping whose `command` is a string when present), `find_match` returns a
directive without raising; missing fields degrade to empty strings. -/
theorem c2_well_typed_no_error (e : List (String × JValue))
    (h : wellTypedEvent e = true) : ∃ r, EventMatcher.find_match e = .ok r := by
  unfold wellTypedEvent at h
  rw [Bool.and_eq_true, Bool.and_eq_true] at h
  obtain ⟨⟨h1, h2⟩, h3⟩ := h
  obtain ⟨en, hen⟩ := (JValue.isStr_iff _).mp h1
  obtain ⟨tn, htn⟩ := (JValue.isStr_iff _).mp h2
  simp only [EventMatcher.find_match, hen, htn, findMatchE_str]
  cases hs : EventMatcher.system_events.find? (fun q => q.matches en) with
  | some p => exact ⟨_, rfl⟩
  | none =>
    cases ht : EventMatcher.tools.find? (fun q => q.matches tn) with
    | some p => exact ⟨_, rfl⟩
    | none =>
      cases hb : (JValue.str tn).isStrEq "Bash" && (JValue.str en).isStrEq "PreToolUse" with
      | false => simp [hb]
      | true =>
        simp only [hb, if_true]
        cases hti : dictGet e "tool_input" (.obj []) with
        | obj kvs =>
          rw [hti] at h3
          obtain ⟨cs, hcs⟩ := (JValue.isStr_iff _).mp h3
          simp only [getCommandAttr, hcs, filterMatchesE_str]
          cases hpm : pyMax (EventMatcher.bash_commands.filter (fun q => q.matches cs)) with
          | some best => exact ⟨_, rfl⟩
          | none => exact ⟨_, rfl⟩
        | null => rw [hti] at h3; cases h3
        | bool b => rw [hti] at h3; cases h3
        | num n => rw [hti] at h3; cases h3
        | str t => rw [hti] at h3; cases h3
        | arr xs => rw [hti] at h3; cases h3

/-- C2 witness for the amended claim, at a fully populated payload. -/
theorem c2_well_typed_no_error_witness :
    wellTypedEvent (bashEvent "ls -la") = true ∧
      ∃ r, EventMatcher.find_match (bashEvent "ls -la") = .ok r :=
  ⟨by decide, c2_well_typed_no_error (bashEvent "ls -la") (by decide)⟩

/-- C3: a sound id containing `/`, `\` or `..` is rejected by
`play_sound`: the result is `False`, no exception, and no external action
at all (in particular the sound-file lookup is never invoked). -/
theorem c3_invalid_sound_name_rejected (env : AudioEnv) (s : String)
    (h : strContainsSubstr s "/" = true ∨ strContainsSubstr s "\\" = true ∨
         strContainsSubstr s ".." = true) :
    play_sound env s = (false, []) := by
  have hc : (strContainsSubstr s "/" || strContainsSubstr s "\\" ||
      strContainsSubstr s "..") = true := by
    rcases h with h | h | h <;> simp [h]
  simp [play_sound, hc]

/-- C3 witness: a traversal id is rejected with no trace. -/
theorem c3_invalid_sound_name_rejected_witness :
    play_sound ⟨fun _ => some "/tmp/s.wav", ["afplay"], fun _ _ => true, true, true⟩
      "../../etc/passwd" = (false, []) :=
  c3_invalid_sound_name_rejected _ "../../etc/passwd" (Or.inl (by decide))

/-- C4: the shell category ends in a catch-all rule of priority 0 matching
any text, so every shell pre-execution event resolves to a non-null
directive, whatever the command string. -/
theorem c4_bash_catch_all_non_null :
    catch_all ∈ EventMatcher.bash_commands ∧ catch_all.priority = 0 ∧
    (∀ t : String, catch_all.matches t = true) ∧
    (∀ c : String, ∃ s v,
      EventMatcher.find_match (bashEvent c) = .ok (some s, some v)) := by
  refine ⟨by decide, rfl, catch_all_matches, ?_⟩
  intro c
  cases hf : EventMatcher.bash_commands.filter (fun q => q.matches c) with
  | nil =>
    exfalso
    have hmem : catch_all ∈ EventMatcher.bash_commands.filter (fun q => q.matches c) :=
      List.mem_filter.mpr ⟨by decide, catch_all_matches c⟩
    rw [hf] at hmem
    cases hmem
  | cons x xs =>
    refine ⟨(pyMaxFold x xs).sound, (pyMaxFold x xs).voice_key, ?_⟩
    rw [find_match_bashEvent c, hf]
    rfl

/-- C5: whenever `event_name` matches a system-lifecycle rule (first match
in table order), `find_match` returns exactly that rule's pair, whatever
`tool_name` (or anything else) the payload carries. -/
theorem c5_system_event_precedence (event : List (String × JValue)) (en : String)
    (p : Pattern)
    (h1 : dictGet event "hook_event_name" (.str "") = .str en)
    (h2 : EventMatcher.system_events.find? (fun q => q.matches en) = some p) :
    EventMatcher.find_match event = .ok (some p.sound, some p.voice_key) := by
  simp only [EventMatcher.find_match, h1, findMatchE_str, h2]

/-- C5 witness: a `Stop` event that also carries `tool_name = "Edit"`
still resolves to the `Stop` rule's pair. -/
theorem c5_system_event_precedence_witness :
    EventMatcher.find_match [("hook_event_name", .str "Stop"), ("tool_name", .str "Edit")] =
      .ok (some "complete", some "Stop") :=
  c5_system_event_precedence
    [("hook_event_name", .str "Stop"), ("tool_name", .str "Edit")] "Stop"
    ⟨rlit "Stop", "complete", "Stop", 100, "Task completed"⟩ rfl (by decide)

/-- C6: the exit status is non-zero exactly when the run reaches the stdin
read and it fails with a JSON decode error; a fault raised during
configuration loading, handler construction, the stdin read itself (other
than a decode error) or event handling is caught and yields exit code 0,
and the only exit codes are 0 and 1. -/
theorem c6_exit_code_policy (env : MainEnv) :
    (runMain env ≠ 0 ↔
      env.config_fault = none ∧ env.init_fault = none ∧ env.stdin.isJsonError = true) ∧
    (runMain env = 0 ∨ runMain env = 1) := by
  obtain ⟨cf, inf, st, cfg⟩ := env
  cases cf with
  | some f => cases f <;> simp [runMain, exitForFault]
  | none =>
    cases inf with
    | some f => cases f <;> simp [runMain, exitForFault]
    | none =>
      cases st with
      | jsonError m => simp [runMain, StdinOutcome.isJsonError]
      | readFault f => cases f <;> simp [runMain, exitForFault, StdinOutcome.isJsonError]
      | parsed v =>
        have h0 : runMain ⟨none, none, .parsed v, cfg⟩ = 0 := by
          cases v with
          | obj kvs =>
            simp only [runMain]
            rcases h : handle_event cfg kvs with ⟨effs, err⟩
            cases err <;> rfl
          | null => rfl
          | bool b => rfl
          | num n => rfl
          | str t => rfl
          | arr xs => rfl
        simp [h0, StdinOutcome.isJsonError]

/-- C7 counterexample: the claim says test mode still runs sound-resource
resolution.  It does not: every `play_sound` call — the only entry into
`_find_sound_file` resolution — sits under `if not self.config.test_mode`.
With test mode set, a `git commit` event in mode `sound` (whose directive
has a sound id to resolve) produces only the audit-log write: the
`AudioManager` is never entered, so resolution never runs. -/
theorem c7_test_mode_counterexample :
    handle_event ⟨"sound", true⟩ (bashEvent "git commit -m x") =
      ([.log_event], none) := rfl

/-- C7 (amended): with the test-mode flag set, `handle_event` runs matching
for the event but takes no external action beyond the audit-log write — in
particular it invokes no backend delivery operation (no sound playback, no
speech synthesis) and never enters the `AudioManager`, so no sound-resource
resolution is attempted either — for every payload and every mode. -/
theorem c7_test_mode_no_external_action (cfg : HookConfig)
    (event : List (String × JValue)) (h : cfg.test_mode = true) :
    (handle_event cfg event).1 = [.log_event] := by
  unfold handle_event
  cases hm : EventMatcher.find_match event with
  | error err => rfl
  | ok r =>
    obtain ⟨sn, vk⟩ := r
    simp [dispatch_test_mode cfg sn vk h]

/-- C7 witness: test mode in mode `both` on a matching event. -/
theorem c7_test_mode_no_external_action_witness :
    (handle_event ⟨"both", true⟩ (bashEvent "git commit -m x")).1 = [.log_event] :=
  c7_test_mode_no_external_action ⟨"both", true⟩ (bashEvent "git commit -m x") rfl

/-- C8: in mode `both`, when the matcher produced both halves of the
directive, the trace is audit log, voice call, the fixed `time.sleep(0.1)`
gap, then the sound call — voice strictly before sound with an observable
gap; and each half runs on its own when the other is absent. -/
theorem c8_both_voice_before_sound (cfg : HookConfig)
    (event : List (String × JValue)) (s v : String)
    (hm : cfg.mode = "both") (ht : cfg.test_mode = false)
    (hf : EventMatcher.find_match event = .ok (some s, some v)) :
    (handle_event cfg event).1 =
      [.log_event, .speak (jpGet v), .sleep_delay, .play s] ∧
    dispatch cfg none (some v) = [.speak (jpGet v)] ∧
    dispatch cfg (some s) none = [.sleep_delay, .play s] := by
  obtain ⟨hs, hv⟩ := find_match_ok_fields hf
  have hsb : (s == "") = false := beq_eq_false_iff_ne.mpr hs
  have hvb : (v == "") = false := beq_eq_false_iff_ne.mpr hv
  refine ⟨?_, ?_, ?_⟩
  · simp [handle_event, hf, dispatch_both cfg s v hm ht hs hv]
  · simp [dispatch, truthyOpt, hm, ht, hvb]
  · simp [dispatch, truthyOpt, hm, ht, hsb]

/-- C8 witness: a `git commit` shell event in mode `both`. -/
theorem c8_both_voice_before_sound_witness :
    (handle_event ⟨"both", false⟩ (bashEvent "git commit -m x")).1 =
      [.log_event, .speak (jpGet "git_commit"), .sleep_delay, .play "commit"] ∧
    dispatch ⟨"both", false⟩ none (some "git_commit") = [.speak (jpGet "git_commit")] ∧
    dispatch ⟨"both", false⟩ (some "commit") none = [.sleep_delay, .play "commit"] :=
  c8_both_voice_before_sound ⟨"both", false⟩ (bashEvent "git commit -m x")
    "commit" "git_commit" rfl rfl rfl

/-- C9: whatever the probe outcomes, the initialized sound player list is
nonempty: the system beep's availability probe is constantly true, so it
always survives filtering (and the empty-list fallback appends it anyway). -/
theorem c9_sound_backends_nonempty (env : ProbeEnv) :
    init_sound_players env ≠ [] ∧ SPlayer.systemBeep ∈ init_sound_players env ∧
    SPlayer.is_available env SPlayer.systemBeep = true := by
  obtain ⟨a, s⟩ := env
  cases a <;> cases s <;> decide

/-- C10: every voice key any rule of the table can produce has an entry in
the Japanese localization table, so the raw-key fallback of
`JAPANESE_EVENT_DESCRIPTIONS.get(voice_key, voice_key)` is never taken for
matcher-produced directives. -/
theorem c10_voice_keys_localized :
    (allPatterns.all fun p => (jpLookup p.voice_key).isSome) = true := by
  decide

end HookV3
